import Mathlib

/-!
Verification of the real-time event relay of the `pulse` team-messaging
backend (Go sources under `backend/internal/transport/ws`): the event
envelope, the per-connection state, the Hub registry (multi-tab version:
`clients : map[uuid.UUID]map[*Client]struct\x7b\x7d`), its control-loop
operations (register / unregister / broadcast), the direct user send, the
notifier adapter, and the client-side inbound event handler.

Modelling conventions:
- `uuid.UUID` values (user ids, channel ids, message ids) are modelled as
  `Nat`; distinct UUIDs become distinct naturals.
- A Go `*Client` pointer is identified by a `Nat` field `id`; the Go
  hub never aliases two live clients, so pointer equality is id equality.
- The Go map `clients` is an association list `List (Nat × List Client)`
  (user id, set of that user's clients); the inner set is a list of
  clients with pairwise-distinct ids.
- A mailbox (`send chan []byte`, capacity 256) is a FIFO `List Event`;
  a non-blocking send (`select \x7bcase ch <- v: default:\x7d`) appends when
  `length < 256` and is a no-op otherwise.
- Closing `client.send` / `client.done` is recorded by appending the
  client id to the hub's `closed` log.
- `json.Marshal` of the concrete payload structs never fails, so envelope
  serialization is modelled as the identity (mailboxes hold `Event`s).
- `time.Now().Unix()` is passed explicitly as a `now : Int` argument.
-/

/-- Server-set Unix timestamps are `Int` (Go `int64`); the envelope field
has `omitempty`, so a zero timestamp is absent from the serialized JSON. -/
abbrev Timestamp := Int

/-- Essential fields of `domain.Message` (message.go): id, channel,
sender, content.  Fields irrelevant to the relay are omitted. -/
structure Message where
  id : Nat
  channelID : Nat
  senderID : Nat
  content : Option String
deriving Repr, DecidableEq

/-- Essential fields of `domain.DMMessage` (dm.go). -/
structure DMMessage where
  id : Nat
  conversationID : Nat
  senderID : Nat
  content : Option String
deriving Repr, DecidableEq

/-- The kind-specific payload carried by an envelope (event.go payload
structs).  `raw` stands for an arbitrary inbound JSON blob that does not
parse as any known payload. -/
inductive Payload where
  | empty : Payload
  | message : Message → Payload
  | messageDeleted : Nat → Payload
  | dm : DMMessage → Payload
  | dmDeleted : Nat → Payload
  | typing : Nat → String → Payload
  | presence : Nat → String → Payload
  | error : String → String → Payload
  | channel : Nat → Payload
  | messageSend : String → Payload
  | raw : String → Payload
deriving Repr, DecidableEq

/-- `ws.Event`: the wire envelope (`type`, optional `channel_id`,
`payload`, `ts`).  `ts` has JSON tag `omitempty`: it is serialized iff it
is non-zero. -/
structure Event where
  type : String
  channelID : Option Nat
  payload : Payload
  timestamp : Timestamp
deriving Repr, DecidableEq

-- Event type constants (event.go).  Client → server:
def EventTypeMessageSend : String := "message.send"
def EventTypeTypingStart : String := "typing.start"
def EventTypeTypingStop : String := "typing.stop"
def EventTypeChannelSubscribe : String := "channel.subscribe"
def EventTypeChannelUnsubscribe : String := "channel.unsubscribe"
def EventTypePing : String := "ping"

-- Server → client:
def EventTypeMessageNew : String := "message.new"
def EventTypeMessageEdited : String := "message.edited"
def EventTypeMessageDeleted : String := "message.deleted"
def EventTypeTyping : String := "typing"
def EventTypePresence : String := "presence"
def EventTypePong : String := "pong"
def EventTypeError : String := "error"

-- DM event kinds: used by notifier.go and matched by the frontend's
-- websocket event switch (dm.new / dm.edited / dm.deleted).
def EventTypeDMNew : String := "dm.new"
def EventTypeDMEdited : String := "dm.edited"
def EventTypeDMDeleted : String := "dm.deleted"

/-- `ws.NewEvent`: builds a server→client envelope stamped with the
current time (`time.Now().Unix()`, passed here as `now`).  For the
payloads used by the relay `json.Marshal` never fails, so the Go error
branch is dead and the function is total. -/
def NewEvent (eventType : String) (channelID : Option Nat)
    (payload : Payload) (now : Timestamp) : Event :=
  { type := eventType, channelID := channelID, payload := payload,
    timestamp := now }

/-- `sendBufSize = 256` (client.go): mailbox capacity. -/
def sendBufSize : Nat := 256

/-- `ws.Client`: one WebSocket connection.  `id` stands for the Go
pointer identity, `userID` is fixed, `subscribedChannels` is the
subscription set, `send` the outbound mailbox (FIFO, capacity
`sendBufSize`). -/
structure Client where
  id : Nat
  userID : Nat
  subscribedChannels : List Nat
  send : List Event
deriving Repr, DecidableEq

/-- `Client.IsSubscribed`. -/
def Client.isSubscribed (c : Client) (channelID : Nat) : Bool :=
  c.subscribedChannels.contains channelID

/-- `Client.Subscribe`: set insertion. -/
def Client.subscribe (c : Client) (channelID : Nat) : Client :=
  if c.subscribedChannels.contains channelID then c
  else { c with subscribedChannels := c.subscribedChannels ++ [channelID] }

/-- `Client.Unsubscribe`: set removal. -/
def Client.unsubscribe (c : Client) (channelID : Nat) : Client :=
  { c with subscribedChannels :=
      c.subscribedChannels.filter (fun x => x ≠ channelID) }

/-- Non-blocking mailbox send (`select \x7bcase c.send <- data: default:\x7d`):
append when there is room, silently drop otherwise. -/
def trySend (c : Client) (e : Event) : Client :=
  if c.send.length < sendBufSize then { c with send := c.send ++ [e] }
  else c

/-- `ws.Hub` (multi-tab version): `clients` is the membership map
user id → set of live clients; `closed` logs, in order, the ids of the
clients whose `send`/`done` channels the hub has closed. -/
structure Hub where
  clients : List (Nat × List Client)
  closed : List Nat
deriving Repr, DecidableEq

/-- Go map read `h.clients[uid]` (with `ok`). -/
def lookupUser (h : Hub) (uid : Nat) : Option (List Client) :=
  (h.clients.find? (fun p => p.1 = uid)).map Prod.snd

/-- Go map write `m[uid] = s`: replace the entry if the key is present,
create it otherwise. -/
def setUserEntry (l : List (Nat × List Client)) (uid : Nat)
    (s : List Client) : List (Nat × List Client) :=
  if l.any (fun p => p.1 = uid) then
    l.map (fun p => if p.1 = uid then (uid, s) else p)
  else l ++ [(uid, s)]

/-- Go map delete `delete(m, uid)`. -/
def removeUserEntry (l : List (Nat × List Client)) (uid : Nat) :
    List (Nat × List Client) :=
  l.filter (fun p => p.1 ≠ uid)

/-- `Hub.broadcastPresence`: builds a `presence` envelope via `NewEvent`
and non-blockingly sends it to every client of every user other than
`uid` (full mailboxes drop; nobody is disconnected here). -/
def broadcastPresence (h : Hub) (uid : Nat) (status : String)
    (now : Timestamp) : Hub :=
  let evt := NewEvent EventTypePresence none (.presence uid status) now
  { h with clients := h.clients.map (fun p =>
      if p.1 = uid then p
      else (p.1, p.2.map (fun c => trySend c evt))) }

/-- `Hub.Run`, `register` case: ensure the user's set exists, note
whether it was empty, add the client, and broadcast `presence online`
only on the user's first connection. -/
def hubRegister (h : Hub) (c : Client) (now : Timestamp) : Hub :=
  let cur := (lookupUser h c.userID).getD []
  let h1 : Hub := { h with clients := setUserEntry h.clients c.userID (cur ++ [c]) }
  if cur.isEmpty then broadcastPresence h1 c.userID "online" now else h1

/-- `Hub.Run`, `unregister` case: if the client is present in its user's
set, remove it and close its channels; if the set became empty, delete
the user's entry and broadcast `presence offline`. -/
def hubUnregister (h : Hub) (c : Client) (now : Timestamp) : Hub :=
  match lookupUser h c.userID with
  | none => h
  | some s =>
    if s.any (fun x => x.id = c.id) then
      let s1 := s.filter (fun x => x.id ≠ c.id)
      if s1.isEmpty then
        broadcastPresence
          { clients := removeUserEntry h.clients c.userID,
            closed := h.closed ++ [c.id] } c.userID "offline" now
      else
        { clients := setUserEntry h.clients c.userID s1,
          closed := h.closed ++ [c.id] }
    else h

/-- `broadcastMsg`: the command placed on the hub's `broadcast` channel. -/
structure BroadcastMsg where
  channelID : Nat
  data : Event
  excludeID : Option Nat
deriving Repr, DecidableEq

/-- One client's fate under a channel broadcast: unsubscribed clients are
kept untouched; subscribed clients with room get the data appended;
subscribed clients with a full mailbox are dropped (`none`). -/
def deliverClient (channelID : Nat) (data : Event) (c : Client) :
    Option Client :=
  if !(c.isSubscribed channelID) then some c
  else if c.send.length < sendBufSize then
    some { c with send := c.send ++ [data] }
  else none

/-- Ids of the clients of one set that a channel broadcast drops
(subscribed and mailbox full). -/
def droppedIds (channelID : Nat) (s : List Client) : List Nat :=
  (s.filter (fun c =>
    c.isSubscribed channelID && !(c.send.length < sendBufSize))).map
    (fun c => c.id)

/-- `Hub.Run`, `broadcast` case: skip the excluded user's whole entry;
for every other entry deliver to each subscribed client, dropping and
closing clients whose mailbox is full.  Note: a user's map entry is kept
even when the drop empties the set (`delete(set, client)` only). -/
def hubBroadcast (h : Hub) (msg : BroadcastMsg) : Hub :=
  { clients := h.clients.map (fun p =>
      if msg.excludeID = some p.1 then p
      else (p.1, p.2.filterMap (deliverClient msg.channelID msg.data))),
    closed := h.closed ++ h.clients.flatMap (fun p =>
      if msg.excludeID = some p.1 then []
      else droppedIds msg.channelID p.2) }

/-- `Hub.BroadcastToChannel`: marshals the event and enqueues a
`broadcastMsg` on the hub's broadcast channel.  It does not touch the
membership map; the command is processed later by the control loop
(`hubBroadcast`). -/
def BroadcastToChannel (channelID : Nat) (event : Event)
    (excludeUserID : Option Nat) : BroadcastMsg :=
  { channelID := channelID, data := event, excludeID := excludeUserID }

/-- `Hub.BroadcastToUser`: reads `h.clients[userID]` directly in the
calling goroutine and non-blockingly sends to each of that user's
clients; full mailboxes drop silently, nobody is unregistered or
closed. -/
def BroadcastToUser (h : Hub) (userID : Nat) (event : Event) : Hub :=
  match lookupUser h userID with
  | none => h
  | some _ =>
    { h with clients := h.clients.map (fun p =>
        if p.1 = userID then (p.1, p.2.map (fun c => trySend c event))
        else p) }

/-- `HubNotifier.NotifyNewMessage`: `message.new` envelope scoped to the
message's channel, broadcast with `excludeUserID = nil`. -/
def NotifyNewMessage (msg : Message) (now : Timestamp) : BroadcastMsg :=
  BroadcastToChannel msg.channelID
    (NewEvent EventTypeMessageNew (some msg.channelID) (.message msg) now)
    none

/-- `HubNotifier.NotifyEditedMessage`. -/
def NotifyEditedMessage (msg : Message) (now : Timestamp) : BroadcastMsg :=
  BroadcastToChannel msg.channelID
    (NewEvent EventTypeMessageEdited (some msg.channelID) (.message msg) now)
    none

/-- `HubNotifier.NotifyDeletedMessage`. -/
def NotifyDeletedMessage (channelID messageID : Nat) (now : Timestamp) :
    BroadcastMsg :=
  BroadcastToChannel channelID
    (NewEvent EventTypeMessageDeleted (some channelID)
      (.messageDeleted messageID) now) none

/-- `HubNotifier.NotifyNewDM`. -/
def NotifyNewDM (msg : DMMessage) (now : Timestamp) : BroadcastMsg :=
  BroadcastToChannel msg.conversationID
    (NewEvent EventTypeDMNew (some msg.conversationID) (.dm msg) now) none

/-- `HubNotifier.NotifyEditedDM`. -/
def NotifyEditedDM (msg : DMMessage) (now : Timestamp) : BroadcastMsg :=
  BroadcastToChannel msg.conversationID
    (NewEvent EventTypeDMEdited (some msg.conversationID) (.dm msg) now)
    none

/-- `HubNotifier.NotifyDeletedDM`. -/
def NotifyDeletedDM (conversationID messageID : Nat) (now : Timestamp) :
    BroadcastMsg :=
  BroadcastToChannel conversationID
    (NewEvent EventTypeDMDeleted (some conversationID)
      (.dmDeleted messageID) now) none

/-- `Client.sendPong`: `json.Marshal(Event\x7bType: EventTypePong\x7d)` — the
envelope is built directly, not via `NewEvent`, so its timestamp is the
zero value (omitted from the JSON by `omitempty`). -/
def sendPongEvent : Event :=
  { type := EventTypePong, channelID := none, payload := .empty,
    timestamp := 0 }

/-- `Client.sendPong`: non-blocking self-send of the pong envelope. -/
def sendPong (c : Client) : Client := trySend c sendPongEvent

/-- `Client.sendError`: builds an `error` envelope via `NewEvent` and
non-blockingly enqueues it on the client's own mailbox. -/
def sendError (c : Client) (code message : String) (now : Timestamp) :
    Client :=
  trySend c (NewEvent EventTypeError none (.error code message) now)

/-- `Hub.HandleTyping`: only `typing.start` is re-broadcast, as a
`typing` envelope excluding the sender's user id; `typing.stop` is
dropped. -/
def HandleTyping (sender : Client) (event : Event) (now : Timestamp) :
    List BroadcastMsg :=
  match event.channelID with
  | none => []
  | some channelID =>
    if event.type = EventTypeTypingStart then
      [BroadcastToChannel channelID
        (NewEvent EventTypeTyping (some channelID)
          (.typing sender.userID "") now) (some sender.userID)]
    else []

/-- Inbound `ChannelPayload` parse: succeeds exactly when the payload is
a channel reference. -/
def parseChannelPayload : Payload → Option Nat
  | .channel channelID => some channelID
  | _ => none

/-- `Client.handleEvent`: routes one inbound envelope.  Returns the
updated client (subscriptions / own mailbox) and the list of commands it
hands to the hub's broadcast channel. -/
def handleEvent (c : Client) (event : Event) (now : Timestamp) :
    Client × List BroadcastMsg :=
  if event.type = EventTypeChannelSubscribe then
    match parseChannelPayload event.payload with
    | some channelID => (c.subscribe channelID, [])
    | none =>
      (sendError c "INVALID_PAYLOAD" "invalid channel_subscribe payload" now,
        [])
  else if event.type = EventTypeChannelUnsubscribe then
    match parseChannelPayload event.payload with
    | some channelID => (c.unsubscribe channelID, [])
    | none =>
      (sendError c "INVALID_PAYLOAD" "invalid channel_unsubscribe payload"
        now, [])
  else if event.type = EventTypeTypingStart ∨ event.type = EventTypeTypingStop then
    match event.channelID with
    | none =>
      (sendError c "INVALID_PAYLOAD" "channel_id required for typing events"
        now, [])
    | some _ => (c, HandleTyping c event now)
  else if event.type = EventTypePing then
    (sendPong c, [])
  else
    (sendError c "UNKNOWN_EVENT" ("unknown event type: " ++ event.type) now,
      [])

/-- Test fixture: a hub holding exactly one registered connection (id
`i`, user `u`, subscribed to `cid`, empty mailbox), nothing closed. -/
def soleClientHub (u i cid : Nat) : Hub :=
  { clients := [(u, [⟨i, u, [cid], []⟩])], closed := [] }

/-- `n` successive deliveries of the same channel-broadcast command by
the control loop. -/
def iterBroadcast (h : Hub) (msg : BroadcastMsg) : Nat → Hub
  | 0 => h
  | n + 1 => hubBroadcast (iterBroadcast h msg n) msg

/-! ## Helper lemmas on the association-list map -/

/-- `find?` by key commutes with a key-preserving entry transform. -/
lemma find_map_entry (l : List (Nat × List Client))
    (f : Nat → List Client → List Client) (u : Nat) :
    (l.map (fun p => (p.1, f p.1 p.2))).find? (fun p => p.1 = u)
      = (l.find? (fun p => p.1 = u)).map (fun p => (p.1, f p.1 p.2)) := by
  induction l with
  | nil => rfl
  | cons p t ih =>
    by_cases hp : p.1 = u <;> simp [List.find?, hp, ih]

/-- `lookupUser` after a key-preserving transform of all entries. -/
lemma lookupUser_map_entries (l : List (Nat × List Client))
    (cl cl2 : List Nat) (f : Nat → List Client → List Client) (u : Nat) :
    lookupUser ⟨l.map (fun p => (p.1, f p.1 p.2)), cl⟩ u
      = (lookupUser ⟨l, cl2⟩ u).map (f u) := by
  unfold lookupUser
  simp only [find_map_entry]
  cases hf : l.find? (fun p => p.1 = u) with
  | none => rfl
  | some a =>
    have ha : a.1 = u := by simpa using List.find?_some hf
    simp [ha]

/-- The entry map in `broadcastPresence` written in key-preserving form. -/
lemma broadcastPresence_clients (h : Hub) (uid : Nat) (status : String)
    (now : Timestamp) :
    (broadcastPresence h uid status now).clients
      = h.clients.map (fun p => (p.1,
          if p.1 = uid then p.2
          else p.2.map (fun c => trySend c
            (NewEvent EventTypePresence none (.presence uid status) now)))) := by
  unfold broadcastPresence
  refine List.map_congr_left ?_
  intro p _
  obtain ⟨a, b⟩ := p
  by_cases hp : a = uid <;> simp [hp]

/-- The entry map in `hubBroadcast` written in key-preserving form. -/
lemma hubBroadcast_clients (h : Hub) (msg : BroadcastMsg) :
    (hubBroadcast h msg).clients
      = h.clients.map (fun p => (p.1,
          if msg.excludeID = some p.1 then p.2
          else p.2.filterMap (deliverClient msg.channelID msg.data))) := by
  unfold hubBroadcast
  refine List.map_congr_left ?_
  intro p _
  obtain ⟨a, b⟩ := p
  by_cases hp : msg.excludeID = some a <;> simp [hp]

/-- The entry map in `BroadcastToUser` written in key-preserving form. -/
lemma broadcastToUser_clients_of_mem (h : Hub) (userID : Nat)
    (event : Event) (s : List Client)
    (hl : lookupUser h userID = some s) :
    (BroadcastToUser h userID event).clients
      = h.clients.map (fun p => (p.1,
          if p.1 = userID then p.2.map (fun c => trySend c event)
          else p.2)) := by
  unfold BroadcastToUser
  rw [hl]
  refine List.map_congr_left ?_
  intro p _
  obtain ⟨a, b⟩ := p
  by_cases hp : a = userID <;> simp [hp]

/-- `broadcastPresence` does not touch the `closed` log. -/
lemma broadcastPresence_closed (h : Hub) (uid : Nat) (status : String)
    (now : Timestamp) : (broadcastPresence h uid status now).closed = h.closed := by
  unfold broadcastPresence
  rfl

/-- Looking up any user after all entries with key `u` were removed
yields `none` for `u`. -/
lemma lookupUser_removeUserEntry (l : List (Nat × List Client))
    (cl : List Nat) (u : Nat) :
    lookupUser ⟨removeUserEntry l u, cl⟩ u = none := by
  unfold lookupUser removeUserEntry
  have : (l.filter (fun p => p.1 ≠ u)).find? (fun p => p.1 = u) = none := by
    rw [List.find?_eq_none]
    intro p hp
    have := (List.mem_filter.mp hp).2
    simpa using this
  simp [this]

/-- `setUserEntry` makes `u` map to `s`. -/
lemma lookupUser_setUserEntry_self (l : List (Nat × List Client))
    (cl : List Nat) (u : Nat) (s : List Client) :
    lookupUser ⟨setUserEntry l u s, cl⟩ u = some s := by
  unfold setUserEntry
  by_cases hany : l.any (fun p => p.1 = u)
  · have hmap : (l.map (fun p => if p.1 = u then (u, s) else p))
        = l.map (fun p => (p.1, if p.1 = u then s else p.2)) := by
      refine List.map_congr_left ?_
      intro p _
      obtain ⟨a, b⟩ := p
      by_cases hp : a = u <;> simp [hp]
    rw [if_pos hany, hmap,
      lookupUser_map_entries l cl cl (fun k v => if k = u then s else v) u]
    obtain ⟨p, hp, hpu⟩ := List.any_eq_true.mp hany
    have hfind : (l.find? (fun p => p.1 = u)).isSome := by
      rw [List.find?_isSome]
      exact ⟨p, hp, hpu⟩
    obtain ⟨a, ha⟩ := Option.isSome_iff_exists.mp hfind
    unfold lookupUser
    simp [ha]
  · rw [if_neg hany]
    unfold lookupUser
    have hnone : l.find? (fun p => p.1 = u) = none := by
      rw [List.find?_eq_none]
      intro p hp hpu
      exact hany (List.any_eq_true.mpr ⟨p, hp, hpu⟩)
    rw [List.find?_append, hnone]
    simp [List.find?]

/-- `setUserEntry` leaves every entry of a different key in place. -/
lemma mem_setUserEntry_other (l : List (Nat × List Client)) (u : Nat)
    (s : List Client) (v : Nat) (t : List Client) (hv : v ≠ u)
    (hm : (v, t) ∈ l) : (v, t) ∈ setUserEntry l u s := by
  unfold setUserEntry
  split
  · exact List.mem_map.mpr ⟨(v, t), hm, by simp [hv]⟩
  · exact List.mem_append_left _ hm

/-- The new entry written by `setUserEntry` is present. -/
lemma mem_setUserEntry_self (l : List (Nat × List Client)) (u : Nat)
    (s : List Client) : (u, s) ∈ setUserEntry l u s := by
  unfold setUserEntry
  split
  · rename_i hany
    obtain ⟨p, hp, hpu⟩ := List.any_eq_true.mp hany
    have hpu' : p.1 = u := by simpa using hpu
    exact List.mem_map.mpr ⟨p, hp, by simp [hpu']⟩
  · exact List.mem_append_right _ (by simp)

/-- An entry of a user other than `uid` gets the presence envelope
attempted on each of its clients. -/
lemma mem_broadcastPresence_other (h : Hub) (uid : Nat) (status : String)
    (now : Timestamp) (v : Nat) (t : List Client) (hv : v ≠ uid)
    (hm : (v, t) ∈ h.clients) :
    (v, t.map (fun c => trySend c
        (NewEvent EventTypePresence none (.presence uid status) now)))
      ∈ (broadcastPresence h uid status now).clients := by
  rw [broadcastPresence_clients]
  exact List.mem_map.mpr ⟨(v, t), hm, by simp [hv]⟩

/-- The entry of `uid` itself is untouched by `broadcastPresence`. -/
lemma mem_broadcastPresence_self (h : Hub) (uid : Nat) (status : String)
    (now : Timestamp) (t : List Client) (hm : (uid, t) ∈ h.clients) :
    (uid, t) ∈ (broadcastPresence h uid status now).clients := by
  rw [broadcastPresence_clients]
  exact List.mem_map.mpr ⟨(uid, t), hm, by simp⟩

/-- `trySend` changes only the mailbox. -/
lemma trySend_subscribedChannels (c : Client) (e : Event) :
    (trySend c e).subscribedChannels = c.subscribedChannels := by
  unfold trySend
  split <;> rfl

lemma trySend_id (c : Client) (e : Event) : (trySend c e).id = c.id := by
  unfold trySend
  split <;> rfl

lemma trySend_userID (c : Client) (e : Event) :
    (trySend c e).userID = c.userID := by
  unfold trySend
  split <;> rfl

/-- `trySend` on a mailbox with room appends the envelope. -/
lemma trySend_of_room (c : Client) (e : Event)
    (hr : c.send.length < sendBufSize) :
    trySend c e = { c with send := c.send ++ [e] } := by
  unfold trySend
  rw [if_pos hr]

/-- `trySend` on a full mailbox drops the envelope. -/
lemma trySend_of_full (c : Client) (e : Event)
    (hr : ¬ c.send.length < sendBufSize) : trySend c e = c := by
  unfold trySend
  rw [if_neg hr]

/-- `lookupUser` through `broadcastPresence`. -/

lemma find_map_keep (l : List (Nat × List Client))
    (g : Nat × List Client → Nat × List Client)
    (hg : ∀ p, (g p).1 = p.1) (u : Nat) :
    (l.map g).find? (fun p => p.1 = u)
      = (l.find? (fun p => p.1 = u)).map g := by
  induction l with
  | nil => rfl
  | cons p t ih =>
    by_cases hp : p.1 = u
    · simp [List.find?, hg, hp]
    · simp [List.find?, hg, hp, ih]

lemma lookupUser_map_keep (l : List (Nat × List Client)) (cl : List Nat)
    (g : Nat × List Client → Nat × List Client)
    (hg : ∀ p, (g p).1 = p.1) (u : Nat) :
    lookupUser ⟨l.map g, cl⟩ u
      = (l.find? (fun p => p.1 = u)).map (fun p => (g p).2) := by
  unfold lookupUser
  rw [show (Hub.mk (l.map g) cl).clients = l.map g from rfl, find_map_keep l g hg u]
  cases l.find? (fun p => p.1 = u) <;> rfl

lemma lookupUser_broadcastPresence (h : Hub) (uid : Nat) (status : String)
    (now : Timestamp) (u : Nat) :
    lookupUser (broadcastPresence h uid status now) u
      = (lookupUser h u).map (fun s =>
          if u = uid then s
          else s.map (fun c => trySend c
            (NewEvent EventTypePresence none (.presence uid status) now))) := by
  simp only [broadcastPresence]
  rw [lookupUser_map_keep h.clients h.closed _
    (fun p => by
      obtain ⟨a, b⟩ := p
      by_cases hp : a = uid <;> simp [hp]) u]
  unfold lookupUser
  cases hf : h.clients.find? (fun p => p.1 = u) with
  | none => rfl
  | some a =>
    have ha : a.1 = u := by simpa using List.find?_some hf
    obtain ⟨k, b⟩ := a
    subst ha
    by_cases hk : k = uid <;> simp [hk]

lemma hubUnregister_eq_nomem (h : Hub) (c : Client) (now : Timestamp)
    (hl : lookupUser h c.userID = none) : hubUnregister h c now = h := by
  unfold hubUnregister
  rw [hl]

lemma hubUnregister_eq_notin (h : Hub) (c : Client) (now : Timestamp)
    (s : List Client) (hl : lookupUser h c.userID = some s)
    (hin : s.any (fun x => x.id = c.id) = false) :
    hubUnregister h c now = h := by
  unfold hubUnregister
  rw [hl]
  simp [hin]

lemma hubUnregister_eq_last (h : Hub) (c : Client) (now : Timestamp)
    (s : List Client) (hl : lookupUser h c.userID = some s)
    (hin : s.any (fun x => x.id = c.id) = true)
    (hemp : (s.filter (fun x => x.id ≠ c.id)).isEmpty = true) :
    hubUnregister h c now
      = broadcastPresence
          { clients := removeUserEntry h.clients c.userID,
            closed := h.closed ++ [c.id] } c.userID "offline" now := by
  unfold hubUnregister
  rw [hl]
  simp only [hin, hemp, if_true]

lemma hubUnregister_eq_mid (h : Hub) (c : Client) (now : Timestamp)
    (s : List Client) (hl : lookupUser h c.userID = some s)
    (hin : s.any (fun x => x.id = c.id) = true)
    (hemp : (s.filter (fun x => x.id ≠ c.id)).isEmpty = false) :
    hubUnregister h c now
      = { clients := setUserEntry h.clients c.userID
            (s.filter (fun x => x.id ≠ c.id)),
          closed := h.closed ++ [c.id] } := by
  unfold hubUnregister
  rw [hl]
  simp only [hin, hemp, if_true, Bool.false_eq_true, if_false]

theorem hubUnregister_idempotent (h : Hub) (c : Client) (now now2 : Timestamp) :
    hubUnregister (hubUnregister h c now) c now2 = hubUnregister h c now := by
  cases hl : lookupUser h c.userID with
  | none =>
    rw [hubUnregister_eq_nomem h c now hl]
    exact hubUnregister_eq_nomem h c now2 hl
  | some s =>
    rcases hin : s.any (fun x => x.id = c.id) with _ | _
    · rw [hubUnregister_eq_notin h c now s hl hin]
      exact hubUnregister_eq_notin h c now2 s hl hin
    · rcases hemp : (s.filter (fun x => x.id ≠ c.id)).isEmpty with _ | _
      · have h1 := hubUnregister_eq_mid h c now s hl hin hemp
        have hl2 : lookupUser (hubUnregister h c now) c.userID
            = some (s.filter (fun x => x.id ≠ c.id)) := by
          rw [h1]
          exact lookupUser_setUserEntry_self _ _ _ _
        have hno : (s.filter (fun x => x.id ≠ c.id)).any
            (fun x => x.id = c.id) = false := by
          rw [Bool.eq_false_iff]
          intro hcon
          obtain ⟨x, hx, hxid⟩ := List.any_eq_true.mp hcon
          have hxne := (List.mem_filter.mp hx).2
          simp at hxne hxid
          exact hxne hxid
        exact hubUnregister_eq_notin _ c now2 _ hl2 hno
      · have h1 := hubUnregister_eq_last h c now s hl hin hemp
        have hl2 : lookupUser (hubUnregister h c now) c.userID = none := by
          rw [h1, lookupUser_broadcastPresence,
            lookupUser_removeUserEntry h.clients (h.closed ++ [c.id]) c.userID]
          rfl
        exact hubUnregister_eq_nomem _ c now2 hl2
/-- C10: any inbound envelope whose kind is none of channel.subscribe,
channel.unsubscribe, typing.start, typing.stop, ping (in particular
message.send) gets exactly one `error` reply with code UNKNOWN_EVENT
attempted on the client's own mailbox (delivered when there is room); the
connection stays open with id, user and subscription set unchanged, and
no broadcast command is handed to the hub. -/
theorem handleEvent_unknown_kind (c : Client) (event : Event)
    (now : Timestamp)
    (hk : event.type ∉ [EventTypeChannelSubscribe,
      EventTypeChannelUnsubscribe, EventTypeTypingStart, EventTypeTypingStop,
      EventTypePing]) :
    handleEvent c event now
        = (sendError c "UNKNOWN_EVENT"
            ("unknown event type: " ++ event.type) now, [])
      ∧ (handleEvent c event now).1.subscribedChannels = c.subscribedChannels
      ∧ (handleEvent c event now).1.id = c.id
      ∧ (handleEvent c event now).1.userID = c.userID
      ∧ (handleEvent c event now).2 = []
      ∧ (c.send.length < sendBufSize →
          (handleEvent c event now).1.send
            = c.send ++ [NewEvent EventTypeError none
                (.error "UNKNOWN_EVENT"
                  ("unknown event type: " ++ event.type)) now]) := by
  simp only [List.mem_cons, List.not_mem_nil, or_false, not_or] at hk
  obtain ⟨h1, h2, h3, h4, h5⟩ := hk
  have he : handleEvent c event now
      = (sendError c "UNKNOWN_EVENT"
          ("unknown event type: " ++ event.type) now, []) := by
    unfold handleEvent
    rw [if_neg h1, if_neg h2, if_neg (not_or.mpr ⟨h3, h4⟩), if_neg h5]
  refine ⟨he, ?_, ?_, ?_, ?_, ?_⟩
  · rw [he]
    exact trySend_subscribedChannels _ _
  · rw [he]
    exact trySend_id _ _
  · rw [he]
    exact trySend_userID _ _
  · rw [he]
  · intro hr
    rw [he]
    show (trySend c _).send = _
    rw [trySend_of_room c _ hr]

/-- Witness for C10 at the concrete kind message.send on a fresh client. -/
theorem handleEvent_unknown_kind_witness :
    handleEvent ⟨0, 0, [], []⟩ ⟨"message.send", none, .raw "x", 0⟩ 5
        = (sendError ⟨0, 0, [], []⟩ "UNKNOWN_EVENT"
            ("unknown event type: " ++ "message.send") 5, [])
      ∧ (handleEvent ⟨0, 0, [], []⟩ ⟨"message.send", none, .raw "x", 0⟩ 5).1.send
        = [] ++ [NewEvent EventTypeError none
            (.error "UNKNOWN_EVENT" ("unknown event type: " ++ "message.send")) 5] := by
  have h := handleEvent_unknown_kind ⟨0, 0, [], []⟩
    ⟨"message.send", none, .raw "x", 0⟩ 5 (by decide)
  exact ⟨h.1, h.2.2.2.2.2 (by decide)⟩

/-- A subscribed client with room gets the broadcast datum appended. -/
lemma deliverClient_delivers (cid : Nat) (data : Event) (c : Client)
    (hsub : c.isSubscribed cid = true)
    (hroom : c.send.length < sendBufSize) :
    deliverClient cid data c = some { c with send := c.send ++ [data] } := by
  unfold deliverClient
  rw [hsub]
  simp [hroom]

/-- A subscribed client with a full mailbox is dropped. -/
lemma deliverClient_drops (cid : Nat) (data : Event) (c : Client)
    (hsub : c.isSubscribed cid = true)
    (hfull : ¬ c.send.length < sendBufSize) :
    deliverClient cid data c = none := by
  unfold deliverClient
  rw [hsub]
  simp [hfull]

/-- Broadcast iteration on the one-connection hub: while the count stays
within the mailbox capacity, every item is enqueued in FIFO order and the
connection stays registered and unclosed. -/
lemma iterBroadcast_soleClientHub (u i cid : Nat) (data : Event) :
    ∀ n, n ≤ sendBufSize →
      iterBroadcast (soleClientHub u i cid) ⟨cid, data, none⟩ n
        = { clients := [(u, [⟨i, u, [cid], List.replicate n data⟩])],
            closed := [] } := by
  intro n
  induction n with
  | zero => intro _; rfl
  | succ k ih =>
    intro hk
    have hk1 : k ≤ sendBufSize := Nat.le_of_succ_le hk
    have hklt : k < sendBufSize := Nat.lt_of_succ_le hk
    have hstep : iterBroadcast (soleClientHub u i cid) ⟨cid, data, none⟩ (k + 1)
        = hubBroadcast (iterBroadcast (soleClientHub u i cid) ⟨cid, data, none⟩ k)
            ⟨cid, data, none⟩ := rfl
    rw [hstep, ih hk1]
    unfold hubBroadcast
    simp [deliverClient, droppedIds, Client.isSubscribed, hklt,
      List.replicate_succ']

/-- C3: with mailbox capacity 256, a connection that never drains
survives the first 256 channel-broadcast deliveries (each enqueued in
order, nothing closed); the 257th delivery — and none earlier — removes
it from the registry and closes it; and a direct user-send against the
full mailbox is silently dropped: the hub state, registration included,
is completely unchanged. -/
theorem mailbox_capacity_asymmetry (u i cid : Nat) (data evt : Event)
    (n : Nat) (hn : n ≤ sendBufSize) :
    iterBroadcast (soleClientHub u i cid) ⟨cid, data, none⟩ n
        = { clients := [(u, [⟨i, u, [cid], List.replicate n data⟩])],
            closed := [] }
    ∧ iterBroadcast (soleClientHub u i cid) ⟨cid, data, none⟩ (sendBufSize + 1)
        = { clients := [(u, [])], closed := [i] }
    ∧ BroadcastToUser
        (iterBroadcast (soleClientHub u i cid) ⟨cid, data, none⟩ sendBufSize)
        u evt
        = iterBroadcast (soleClientHub u i cid) ⟨cid, data, none⟩ sendBufSize := by
  refine ⟨iterBroadcast_soleClientHub u i cid data n hn, ?_, ?_⟩
  · have h256 := iterBroadcast_soleClientHub u i cid data sendBufSize le_rfl
    have hstep : iterBroadcast (soleClientHub u i cid) ⟨cid, data, none⟩
          (sendBufSize + 1)
        = hubBroadcast
            (iterBroadcast (soleClientHub u i cid) ⟨cid, data, none⟩
              sendBufSize) ⟨cid, data, none⟩ := rfl
    rw [hstep, h256]
    unfold hubBroadcast
    simp [deliverClient, droppedIds, Client.isSubscribed]
  · have h256 := iterBroadcast_soleClientHub u i cid data sendBufSize le_rfl
    rw [h256]
    unfold BroadcastToUser
    simp [lookupUser, List.find?, trySend]

/-- Witness for C3 at one delivery into the empty mailbox. -/
theorem mailbox_capacity_asymmetry_witness :
    (1 ≤ sendBufSize)
    ∧ iterBroadcast (soleClientHub 0 1 2) ⟨2, sendPongEvent, none⟩ 1
        = { clients := [(0, [⟨1, 0, [2], List.replicate 1 sendPongEvent⟩])],
            closed := [] } :=
  ⟨by decide,
    (mailbox_capacity_asymmetry 0 1 2 sendPongEvent sendPongEvent 1
      (by decide)).1⟩

/-- Counterexample for C8: the relay's pong reply is enqueued with a
zero `ts` (the envelope is built directly, not via `NewEvent`), so not
every server→client envelope carries a non-zero server timestamp. -/
theorem pong_unstamped_cex :
    (sendPong ⟨0, 0, [], []⟩).send = [sendPongEvent]
    ∧ sendPongEvent.timestamp = 0 :=
  ⟨by decide, rfl⟩

/-- C8 amended: every envelope the relay builds via `NewEvent` —
message.new / message.edited / message.deleted, dm.new / dm.edited /
dm.deleted, typing, presence, error — carries the server clock as its
`ts` field, non-zero whenever the clock reading is non-zero; the pong
reply alone is built without `NewEvent` and carries `ts = 0`, which
`omitempty` drops from the serialized JSON. -/
theorem newEvent_envelopes_timestamped (now : Timestamp) (hnz : now ≠ 0)
    (ty : String) (cid : Option Nat) (p : Payload) (m : Message)
    (d : DMMessage) (chId msgId convId dmId uid : Nat)
    (status code emsg : String) :
    (NewEvent ty cid p now).timestamp = now
    ∧ (NotifyNewMessage m now).data.timestamp ≠ 0
    ∧ (NotifyEditedMessage m now).data.timestamp ≠ 0
    ∧ (NotifyDeletedMessage chId msgId now).data.timestamp ≠ 0
    ∧ (NotifyNewDM d now).data.timestamp ≠ 0
    ∧ (NotifyEditedDM d now).data.timestamp ≠ 0
    ∧ (NotifyDeletedDM convId dmId now).data.timestamp ≠ 0
    ∧ (NewEvent EventTypePresence none (.presence uid status) now).timestamp ≠ 0
    ∧ (NewEvent EventTypeTyping cid (.typing uid "") now).timestamp ≠ 0
    ∧ (NewEvent EventTypeError none (.error code emsg) now).timestamp ≠ 0
    ∧ sendPongEvent.timestamp = 0 :=
  ⟨rfl, hnz, hnz, hnz, hnz, hnz, hnz, hnz, hnz, hnz, rfl⟩

/-- Witness for the amended C8 at clock reading 1. -/
theorem newEvent_envelopes_timestamped_witness :
    ((1 : Timestamp) ≠ 0)
    ∧ (NotifyNewMessage ⟨0, 0, 0, none⟩ 1).data.timestamp ≠ 0 :=
  ⟨by decide,
    (newEvent_envelopes_timestamped 1 (by decide) "t" none .empty
      ⟨0, 0, 0, none⟩ ⟨0, 0, 0, none⟩ 0 0 0 0 0 "s" "c" "m").2.1⟩

/-- Counterexample for C9: two hubs holding the very same connection
states (same flattened list of connections) but different membership
maps; `BroadcastToUser`, called outside the control loop, behaves
differently on them, so its effect depends on — i.e. it reads —
`connections_by_user` directly. -/
theorem broadcastToUser_reads_membership_map_cex :
    (Hub.mk [(1, [⟨0, 1, [], []⟩])] []).clients.flatMap Prod.snd
      = (Hub.mk [(2, [⟨0, 1, [], []⟩])] []).clients.flatMap Prod.snd
    ∧ ¬ ((BroadcastToUser ⟨[(1, [⟨0, 1, [], []⟩])], []⟩ 1
            sendPongEvent).clients.flatMap Prod.snd
        = (BroadcastToUser ⟨[(2, [⟨0, 1, [], []⟩])], []⟩ 1
            sendPongEvent).clients.flatMap Prod.snd) :=
  ⟨rfl, by decide⟩

/-- C9 amended: `BroadcastToUser` reads the membership map from the
calling goroutine (see the counterexample) but never mutates it — the
map's keys and each user's set of connection identities, as well as the
`closed` log, are exactly preserved; membership is mutated only by the
control-loop operations. -/
theorem broadcastToUser_mutates_no_membership (h : Hub) (u : Nat)
    (e : Event) :
    (BroadcastToUser h u e).clients.map (fun p => (p.1, p.2.map Client.id))
      = h.clients.map (fun p => (p.1, p.2.map Client.id))
    ∧ (BroadcastToUser h u e).closed = h.closed := by
  unfold BroadcastToUser
  cases hl : lookupUser h u with
  | none => exact ⟨rfl, rfl⟩
  | some s =>
    refine ⟨?_, rfl⟩
    show (h.clients.map _).map _ = _
    rw [List.map_map]
    refine List.map_congr_left ?_
    intro p _
    obtain ⟨a, b⟩ := p
    by_cases hp : a = u
    · have hids : (b.map (fun c => trySend c e)).map Client.id
          = b.map Client.id := by
        rw [List.map_map]
        exact List.map_congr_left (fun c _ => trySend_id c e)
      simp [hp, Function.comp, hids]
    · simp [hp]

/-- A non-excluded user's entry is replaced by the per-client delivery
result under a channel broadcast. -/
lemma mem_hubBroadcast_other (h : Hub) (msg : BroadcastMsg) (v : Nat)
    (t : List Client) (hv : msg.excludeID ≠ some v)
    (hm : (v, t) ∈ h.clients) :
    (v, t.filterMap (deliverClient msg.channelID msg.data))
      ∈ (hubBroadcast h msg).clients := by
  rw [hubBroadcast_clients]
  exact List.mem_map.mpr ⟨(v, t), hm, by simp [hv]⟩

/-- The excluded user's entry survives a channel broadcast untouched:
none of that user's connections is delivered to, dropped or closed. -/
lemma mem_hubBroadcast_excluded (h : Hub) (msg : BroadcastMsg) (v : Nat)
    (t : List Client) (hv : msg.excludeID = some v)
    (hm : (v, t) ∈ h.clients) :
    (v, t) ∈ (hubBroadcast h msg).clients := by
  rw [hubBroadcast_clients]
  exact List.mem_map.mpr ⟨(v, t), hm, by simp [hv]⟩

/-- Counterexample for C1: message 5 in channel 1 was sent by user 7;
user 7's own connection is subscribed to channel 1, and after the
notifier's broadcast for the persisted record that connection's mailbox
contains the message.new envelope — the acting user is not excluded. -/
theorem notifier_delivers_to_sender_cex :
    (hubBroadcast ⟨[(7, [⟨0, 7, [1], []⟩])], []⟩
        (NotifyNewMessage ⟨5, 1, 7, some "hi"⟩ 1)).clients
      = [(7, [⟨0, 7, [1],
          [NewEvent EventTypeMessageNew (some 1)
            (.message ⟨5, 1, 7, some "hi"⟩) 1]⟩])] := by
  decide

/-- C1 amended: all six notifier functions broadcast with no excluded
user (`excludeUserID = nil`), so every registered connection subscribed
to the scoped channel with mailbox room — the acting user's own
connections included — receives exactly one copy of the envelope. -/
theorem notifier_broadcasts_unexcluded (m : Message) (d : DMMessage)
    (chId msgId convId dmId : Nat) (now : Timestamp) (h : Hub) (u : Nat)
    (s : List Client) (c : Client) (hm : (u, s) ∈ h.clients) (hc : c ∈ s)
    (hsub : c.isSubscribed m.channelID = true)
    (hroom : c.send.length < sendBufSize) :
    (NotifyNewMessage m now).excludeID = none
    ∧ (NotifyEditedMessage m now).excludeID = none
    ∧ (NotifyDeletedMessage chId msgId now).excludeID = none
    ∧ (NotifyNewDM d now).excludeID = none
    ∧ (NotifyEditedDM d now).excludeID = none
    ∧ (NotifyDeletedDM convId dmId now).excludeID = none
    ∧ ∃ t, (u, t) ∈ (hubBroadcast h (NotifyNewMessage m now)).clients
        ∧ { c with send := c.send ++ [NewEvent EventTypeMessageNew
              (some m.channelID) (.message m) now] } ∈ t := by
  refine ⟨rfl, rfl, rfl, rfl, rfl, rfl, ?_⟩
  refine ⟨s.filterMap
    (deliverClient m.channelID (NotifyNewMessage m now).data), ?_, ?_⟩
  · exact mem_hubBroadcast_other h _ u s
      (by simp [NotifyNewMessage, BroadcastToChannel]) hm
  · refine List.mem_filterMap.mpr ⟨c, hc, ?_⟩
    have hdel := deliverClient_delivers m.channelID
      (NotifyNewMessage m now).data c hsub hroom
    rw [hdel]
    rfl

/-- Witness for the amended C1: the sender's own subscribed connection
receives the message.new envelope. -/
theorem notifier_broadcasts_unexcluded_witness :
    ∃ t, (7, t) ∈ (hubBroadcast ⟨[(7, [⟨0, 7, [1], []⟩])], []⟩
        (NotifyNewMessage ⟨5, 1, 7, some "hi"⟩ 2)).clients
      ∧ (⟨0, 7, [1], [] ++ [NewEvent EventTypeMessageNew (some 1)
          (.message ⟨5, 1, 7, some "hi"⟩) 2]⟩ : Client) ∈ t :=
  (notifier_broadcasts_unexcluded ⟨5, 1, 7, some "hi"⟩ ⟨0, 0, 0, none⟩
    0 0 0 0 2 ⟨[(7, [⟨0, 7, [1], []⟩])], []⟩ 7 [⟨0, 7, [1], []⟩]
    ⟨0, 7, [1], []⟩ (by decide) (by decide) (by decide)
    (by decide)).2.2.2.2.2.2

/-- C6: a channel broadcast excluding nobody reaches both of two
subscribed connections of different users; a broadcast excluding one
user's id leaves that user's whole entry (every tab) untouched while
still delivering to the other user's subscribed connections. -/
theorem broadcast_exclusion_semantics (h : Hub) (X : Nat) (data : Event)
    (u1 u2 : Nat) (s1 s2 : List Client) (c1 c2 : Client) (hne : u1 ≠ u2)
    (hm1 : (u1, s1) ∈ h.clients) (hm2 : (u2, s2) ∈ h.clients)
    (hc1 : c1 ∈ s1) (hc2 : c2 ∈ s2)
    (hs1 : c1.isSubscribed X = true) (hs2 : c2.isSubscribed X = true)
    (hr1 : c1.send.length < sendBufSize)
    (hr2 : c2.send.length < sendBufSize) :
    (∃ t1, (u1, t1) ∈ (hubBroadcast h ⟨X, data, none⟩).clients
        ∧ { c1 with send := c1.send ++ [data] } ∈ t1)
    ∧ (∃ t2, (u2, t2) ∈ (hubBroadcast h ⟨X, data, none⟩).clients
        ∧ { c2 with send := c2.send ++ [data] } ∈ t2)
    ∧ (u1, s1) ∈ (hubBroadcast h ⟨X, data, some u1⟩).clients
    ∧ (∃ t2, (u2, t2) ∈ (hubBroadcast h ⟨X, data, some u1⟩).clients
        ∧ { c2 with send := c2.send ++ [data] } ∈ t2) := by
  refine ⟨?_, ?_, ?_, ?_⟩
  · exact ⟨_, mem_hubBroadcast_other h ⟨X, data, none⟩ u1 s1 (by simp) hm1,
      List.mem_filterMap.mpr
        ⟨c1, hc1, deliverClient_delivers X data c1 hs1 hr1⟩⟩
  · exact ⟨_, mem_hubBroadcast_other h ⟨X, data, none⟩ u2 s2 (by simp) hm2,
      List.mem_filterMap.mpr
        ⟨c2, hc2, deliverClient_delivers X data c2 hs2 hr2⟩⟩
  · exact mem_hubBroadcast_excluded h ⟨X, data, some u1⟩ u1 s1 rfl hm1
  · exact ⟨_,
      mem_hubBroadcast_other h ⟨X, data, some u1⟩ u2 s2 (by simp [hne]) hm2,
      List.mem_filterMap.mpr
        ⟨c2, hc2, deliverClient_delivers X data c2 hs2 hr2⟩⟩

/-- Witness for C6: two users on channel 5; excluding user 1 keeps user
1's entry untouched and still delivers to user 2's connection. -/
theorem broadcast_exclusion_semantics_witness :
    (1, [⟨0, 1, [5], []⟩])
      ∈ (hubBroadcast ⟨[(1, [⟨0, 1, [5], []⟩]), (2, [⟨1, 2, [5], []⟩])], []⟩
          ⟨5, sendPongEvent, some 1⟩).clients
    ∧ ∃ t, (2, t)
        ∈ (hubBroadcast ⟨[(1, [⟨0, 1, [5], []⟩]), (2, [⟨1, 2, [5], []⟩])], []⟩
            ⟨5, sendPongEvent, some 1⟩).clients
        ∧ (⟨1, 2, [5], [] ++ [sendPongEvent]⟩ : Client) ∈ t := by
  have hw := broadcast_exclusion_semantics
    ⟨[(1, [⟨0, 1, [5], []⟩]), (2, [⟨1, 2, [5], []⟩])], []⟩ 5 sendPongEvent
    1 2 [⟨0, 1, [5], []⟩] [⟨1, 2, [5], []⟩] ⟨0, 1, [5], []⟩ ⟨1, 2, [5], []⟩
    (by decide) (by decide) (by decide) (by decide) (by decide) (by decide)
    (by decide) (by decide) (by decide)
  exact ⟨hw.2.2.1, hw.2.2.2⟩

/-- `hubRegister` on a user with no registered connection: add the
singleton set, then broadcast presence online. -/
lemma hubRegister_eq_first (h : Hub) (c : Client) (now : Timestamp)
    (hcur : (lookupUser h c.userID).getD [] = []) :
    hubRegister h c now
      = broadcastPresence
          { h with clients := setUserEntry h.clients c.userID [c] }
          c.userID "online" now := by
  simp only [hubRegister]
  rw [hcur]
  simp

/-- `hubRegister` on a user with existing connections: just extend the
set, no presence broadcast. -/
lemma hubRegister_eq_more (h : Hub) (c : Client) (now : Timestamp)
    (s0 : List Client) (hl : lookupUser h c.userID = some s0)
    (hne : s0.isEmpty = false) :
    hubRegister h c now
      = { h with clients := setUserEntry h.clients c.userID (s0 ++ [c]) } := by
  simp only [hubRegister]
  rw [hl]
  simp [hne]

/-- C4: registering a user's first connection attempts exactly one
presence-online envelope on every connection of every other registered
user and none on the registering user's own entry; registering a further
connection for a user who already has one performs the plain map update
and emits no presence envelope at all. -/
theorem register_presence_online (h : Hub) (c : Client) (now : Timestamp) :
    ((lookupUser h c.userID).getD [] = [] →
      (∀ v s, (v, s) ∈ h.clients → v ≠ c.userID →
        (v, s.map (fun x => trySend x (NewEvent EventTypePresence none
            (.presence c.userID "online") now)))
          ∈ (hubRegister h c now).clients)
      ∧ (c.userID, [c]) ∈ (hubRegister h c now).clients
      ∧ (∀ x : Client, x.send.length < sendBufSize →
          trySend x (NewEvent EventTypePresence none
              (.presence c.userID "online") now)
            = { x with send := x.send ++ [NewEvent EventTypePresence none
                (.presence c.userID "online") now] }))
    ∧ (∀ s0, lookupUser h c.userID = some s0 → s0.isEmpty = false →
        hubRegister h c now
          = { h with clients :=
              setUserEntry h.clients c.userID (s0 ++ [c]) }) := by
  constructor
  · intro hcur
    rw [hubRegister_eq_first h c now hcur]
    refine ⟨?_, ?_, ?_⟩
    · intro v s hm hv
      exact mem_broadcastPresence_other _ c.userID "online" now v s hv
        (mem_setUserEntry_other h.clients c.userID [c] v s hv hm)
    · exact mem_broadcastPresence_self _ c.userID "online" now [c]
        (mem_setUserEntry_self h.clients c.userID [c])
    · intro x hx
      exact trySend_of_room x _ hx
  · intro s0 hl hne
    exact hubRegister_eq_more h c now s0 hl hne

/-- Witness for C4: user 3's first connection joins a hub where user 2
is registered; user 2's connection gets the online envelope attempted,
user 3's fresh entry holds only the new untouched connection. -/
theorem register_presence_online_witness :
    (2, [⟨5, 2, [], []⟩].map (fun x => trySend x
        (NewEvent EventTypePresence none (.presence 3 "online") 4)))
      ∈ (hubRegister ⟨[(2, [⟨5, 2, [], []⟩])], []⟩ ⟨9, 3, [], []⟩ 4).clients
    ∧ (3, [⟨9, 3, [], []⟩])
      ∈ (hubRegister ⟨[(2, [⟨5, 2, [], []⟩])], []⟩ ⟨9, 3, [], []⟩ 4).clients := by
  have hw := (register_presence_online ⟨[(2, [⟨5, 2, [], []⟩])], []⟩
    ⟨9, 3, [], []⟩ 4).1 (by decide)
  exact ⟨hw.1 2 [⟨5, 2, [], []⟩] (by decide) (by decide), hw.2.1⟩

/-- After removing a user's map entry, no presence fan-out resurrects a
key for that user. -/
lemma not_mem_broadcastPresence_removed (l : List (Nat × List Client))
    (cl : List Nat) (uid : Nat) (status : String) (now : Timestamp)
    (u : Nat) (t : List Client)
    (hmem : (u, t) ∈ (broadcastPresence ⟨removeUserEntry l u, cl⟩
        uid status now).clients) : False := by
  rw [broadcastPresence_clients] at hmem
  obtain ⟨p, hp, hpe⟩ := List.mem_map.mp hmem
  have hkey : p.1 = u := by simpa using congrArg Prod.fst hpe
  have hne := (List.mem_filter.mp hp).2
  simp at hne
  exact hne hkey

/-- C5: unregistering a user's last registered connection removes the
user's map entry (no entry for that user survives), closes the
connection, and attempts exactly one presence-offline envelope on every
connection of every remaining user; unregistering a non-last connection
just shrinks the set and closes the connection, emitting no presence
envelope. -/
theorem unregister_presence_offline (h : Hub) (c : Client)
    (now : Timestamp) (s : List Client)
    (hl : lookupUser h c.userID = some s)
    (hin : s.any (fun x => x.id = c.id) = true) :
    ((s.filter (fun x => x.id ≠ c.id)).isEmpty = true →
      (∀ t, (c.userID, t) ∉ (hubUnregister h c now).clients)
      ∧ (∀ v t, (v, t) ∈ h.clients → v ≠ c.userID →
          (v, t.map (fun x => trySend x (NewEvent EventTypePresence none
              (.presence c.userID "offline") now)))
            ∈ (hubUnregister h c now).clients)
      ∧ (hubUnregister h c now).closed = h.closed ++ [c.id])
    ∧ ((s.filter (fun x => x.id ≠ c.id)).isEmpty = false →
        hubUnregister h c now
          = { clients := setUserEntry h.clients c.userID
                (s.filter (fun x => x.id ≠ c.id)),
              closed := h.closed ++ [c.id] }) := by
  constructor
  · intro hemp
    have heq := hubUnregister_eq_last h c now s hl hin hemp
    refine ⟨?_, ?_, ?_⟩
    · intro t hmem
      rw [heq] at hmem
      exact not_mem_broadcastPresence_removed h.clients (h.closed ++ [c.id])
        c.userID "offline" now c.userID t hmem
    · intro v t hm hv
      rw [heq]
      exact mem_broadcastPresence_other _ c.userID "offline" now v t hv
        (List.mem_filter.mpr ⟨hm, by simp [hv]⟩)
    · rw [heq, broadcastPresence_closed]
  · intro hemp
    exact hubUnregister_eq_mid h c now s hl hin hemp

/-- Witness for C5: user 1's only connection unregisters; user 1's
entry is gone, user 2's connection gets the offline envelope attempted,
and the connection is closed. -/
theorem unregister_presence_offline_witness :
    (1, ([] : List Client))
      ∉ (hubUnregister ⟨[(1, [⟨0, 1, [], []⟩]), (2, [⟨1, 2, [], []⟩])], []⟩
          ⟨0, 1, [], []⟩ 3).clients
    ∧ (2, [⟨1, 2, [], []⟩].map (fun x => trySend x
        (NewEvent EventTypePresence none (.presence 1 "offline") 3)))
      ∈ (hubUnregister ⟨[(1, [⟨0, 1, [], []⟩]), (2, [⟨1, 2, [], []⟩])], []⟩
          ⟨0, 1, [], []⟩ 3).clients
    ∧ (hubUnregister ⟨[(1, [⟨0, 1, [], []⟩]), (2, [⟨1, 2, [], []⟩])], []⟩
        ⟨0, 1, [], []⟩ 3).closed = [] ++ [0] := by
  have hw := (unregister_presence_offline
    ⟨[(1, [⟨0, 1, [], []⟩]), (2, [⟨1, 2, [], []⟩])], []⟩ ⟨0, 1, [], []⟩ 3
    [⟨0, 1, [], []⟩] (by decide) (by decide)).1 (by decide)
  exact ⟨hw.1 [], hw.2.1 2 [⟨1, 2, [], []⟩] (by decide) (by decide), hw.2.2⟩

/-- C2 failing input: user 1's only connection is subscribed to channel
9 with a full mailbox; one channel broadcast to 9 drops the connection
but leaves `(1, [])` — an empty set — as a map entry: user 1 has no
registered connection yet is still a key of the membership map (and the
`closed` log shows the connection was closed without the unregister
path's entry removal or offline presence). -/
theorem broadcast_drop_leaves_empty_entry :
    (hubBroadcast ⟨[(1, [⟨0, 1, [9],
          List.replicate sendBufSize sendPongEvent⟩])], []⟩
        ⟨9, sendPongEvent, none⟩).clients = [(1, [])]
    ∧ (hubBroadcast ⟨[(1, [⟨0, 1, [9],
          List.replicate sendBufSize sendPongEvent⟩])], []⟩
        ⟨9, sendPongEvent, none⟩).closed = [0] := by
  constructor
  · rw [hubBroadcast_clients]
    simp [deliverClient, Client.isSubscribed]
  · unfold hubBroadcast
    simp [droppedIds, Client.isSubscribed]
